import Mathlib

/-!
Verification of the Cathedral rules engine
(`open_spiel/games/cathedral/cathedral.cc` and `cathedral.h`).

The C++ sources are shallowly embedded below.  Machine integers of the
source are modelled as `Int`/`Nat` (all quantities stay far from any
overflow boundary), the 10x10 `CellState` grid as a total function from
squares to cell states, the two inventories as a function from
(player, building index) to a remaining count, and code paths that throw
(`Move` construction with an out-of-range rotation index,
`Playerpieces::use_building` on an exhausted type) as `Option` failures.
Building types are the 14 indices of the `BuildingType` enumeration, and
rotations are their index 0..3 (the source's `Rotation` enumeration).
-/

/-- The six cell states of the board (`enum class CellState`). -/
inductive CellState where
  | EMPTY
  | BLUE
  | BLACK
  | BLACK_REGION
  | WHITE
  | WHITE_REGION
deriving DecidableEq

open CellState

/-- Integer grid coordinate (`struct Square`). -/
structure Square where
  x : Int
  y : Int
deriving DecidableEq

instance : Add Square := ⟨fun a b => ⟨a.x + b.x, a.y + b.y⟩⟩

/-- Rotation factor tables (`constexpr int dx[4]`, `dy[4]`). -/
def dxTable : List Int := [1, 0, -1, 0]

def dyTable : List Int := [0, 1, 0, -1]

/-- Source `Square::rotate`: rotate about the origin by `r` quarter turns
(the source only ever calls this with `r` in 0..3). -/
def Square.rotate (sq : Square) (r : Nat) : Square :=
  ⟨sq.x * dxTable.getD r 1 - sq.y * dyTable.getD r 0,
   sq.y * dxTable.getD r 1 + sq.x * dyTable.getD r 0⟩

/-- Maximum usable rotation index per building type (the `Turnable`
symmetry class of each entry of `Building::create_instances`:
NO = 0, HALF = 1, FULL = 3). -/
def turnable : Nat → Nat
  | 0 => 0
  | 1 => 1
  | 2 => 3
  | 3 => 1
  | 4 => 3
  | 5 => 0
  | 6 => 1
  | 7 => 1
  | 8 => 3
  | 9 => 3
  | 10 => 0
  | 11 => 3
  | 12 => 3
  | 13 => 3
  | _ => 0

/-- Piece count per building type (`how_many` of `Building::create_instances`). -/
def how_many : Nat → Nat
  | 0 => 2
  | 1 => 2
  | 2 => 2
  | _ => 1

/-- Canonical relative shape per building type
(the form vectors of `Building::create_instances`, in source order:
Tavern, Stable, Inn, Bridge, Manor, Square, Black Abbey, White Abbey,
Black Academy, White Academy, Infirmary, Castle, Tower, Cathedral). -/
def default_form : Nat → List Square
  | 0 => [⟨0, 0⟩]
  | 1 => [⟨0, 0⟩, ⟨1, 0⟩]
  | 2 => [⟨0, 0⟩, ⟨1, 0⟩, ⟨1, 1⟩]
  | 3 => [⟨0, 0⟩, ⟨0, -1⟩, ⟨0, 1⟩]
  | 4 => [⟨-1, 0⟩, ⟨0, 0⟩, ⟨1, 0⟩, ⟨0, 1⟩]
  | 5 => [⟨0, 0⟩, ⟨0, 1⟩, ⟨1, 0⟩, ⟨1, 1⟩]
  | 6 => [⟨-1, 0⟩, ⟨0, 0⟩, ⟨0, 1⟩, ⟨1, 1⟩]
  | 7 => [⟨-1, 1⟩, ⟨0, 0⟩, ⟨0, 1⟩, ⟨1, 0⟩]
  | 8 => [⟨-1, 0⟩, ⟨0, -1⟩, ⟨0, 0⟩, ⟨0, 1⟩, ⟨1, -1⟩]
  | 9 => [⟨-1, -1⟩, ⟨0, -1⟩, ⟨0, 0⟩, ⟨0, 1⟩, ⟨1, 0⟩]
  | 10 => [⟨-1, 0⟩, ⟨0, -1⟩, ⟨0, 0⟩, ⟨0, 1⟩, ⟨1, 0⟩]
  | 11 => [⟨-1, 0⟩, ⟨-1, 1⟩, ⟨0, 0⟩, ⟨1, 0⟩, ⟨1, 1⟩]
  | 12 => [⟨-1, -1⟩, ⟨0, -1⟩, ⟨0, 0⟩, ⟨1, 0⟩, ⟨1, 1⟩]
  | 13 => [⟨-1, 0⟩, ⟨0, -1⟩, ⟨0, 0⟩, ⟨0, 1⟩, ⟨0, 2⟩, ⟨1, 0⟩]
  | _ => []

/-- Source `Building::pre_calculate_forms` entry for rotation index `r`
(each square of the canonical shape rotated, in order). -/
def form_of (bt r : Nat) : List Square :=
  (default_form bt).map (fun sq => sq.rotate r)

/-- The four orthogonal neighbours a square contributes to the corner set
(the four `corner_set.insert` calls of `Building::pre_calculate_corners`). -/
def neighbors4 (sq : Square) : List Square :=
  [⟨sq.x + 1, sq.y⟩, ⟨sq.x - 1, sq.y⟩, ⟨sq.x, sq.y + 1⟩, ⟨sq.x, sq.y - 1⟩]

/-- Source `Building::pre_calculate_corners` for one form: insert every orthogonal
neighbour of a form square into a set, then erase the form squares.
The source keeps the result as a `std::set` ordered by `(y, x)`; the
embedding keeps a duplicate-free list instead (only membership and counts
of this collection are ever consumed). -/
def corner_list (F : List Square) : List Square :=
  ((F.flatMap neighbors4).filter (fun q => decide (q ∉ F))).dedup

/-- Source `Building::pre_calculate_corners` entry for rotation index `r`. -/
def corners_of (bt r : Nat) : List Square :=
  corner_list (form_of bt r)

/-- A placement (`class Move`): building type, rotation index, anchor.
The source also stores the derived `form`/`corners` vectors; the
constructor always fills those from the catalog, so they are modelled as
derived functions (`Move::operator==` compares only these three fields). -/
structure Move where
  pos : Square
  building_type : Nat
  rot : Nat
deriving DecidableEq

/-- Source `Building::form(rotation, pos)`: the rotated form translated by the anchor. -/
def Move.form (m : Move) : List Square :=
  (form_of m.building_type m.rot).map (fun sq => sq + m.pos)

/-- Source `Building::corners(rotation, pos)`: the corner set translated by the anchor. -/
def Move.corners (m : Move) : List Square :=
  (corners_of m.building_type m.rot).map (fun sq => sq + m.pos)

/-- Source `Move::encode`:
`buildingType * board_size * max_rotations + rotation * board_size + y * board_width + x`
with `board_size = 100`, `max_rotations = 4`, `board_width = 10`. -/
def Move.encode (m : Move) : Int :=
  (m.building_type : Int) * 100 * 4 + (m.rot : Int) * 100 + m.pos.y * 10 + m.pos.x

/-- Source `Move::decode_move` followed by the `Move` constructor.  The
constructor throws `std::invalid_argument` when the decoded rotation
index exceeds the building's symmetry class; that (and the out-of-bounds
catalog access a building index >= 14 would be) is modelled as `none`. -/
def decode_move (a : Nat) : Option Move :=
  let bt := a / 400
  let r := (a % 400) / 100
  let y := (a % 100) / 10
  let x := a % 10
  if bt < 14 ∧ r ≤ turnable bt then some ⟨⟨(x : Int), (y : Int)⟩, bt, r⟩ else none

/-- The move a stored history action denotes (`Move(player_action.action)`).
Every action the engine records decodes successfully; the default is junk
for ill-formed histories only. -/
def move_of (a : Nat) : Move :=
  (decode_move a).getD ⟨⟨0, 0⟩, 0, 0⟩

/-- Source `get_square_color`: the cell state a move would paint, given the acting
player (the Cathedral is always neutral `BLUE`). -/
def get_square_color (m : Move) (player : Nat) : CellState :=
  if m.building_type = 13 then BLUE
  else if player = 0 then WHITE
  else if player = 1 then BLACK
  else EMPTY

/-- The 10x10 grid (`class Board`), as a total function on squares.
Cells outside the grid are never consulted by the embedded operations
(the source checks `is_on_board` before each in-bounds access). -/
def Board := Square → CellState

/-- Write one cell (`Board::place_color` body, one square). -/
def Board.set (b : Board) (sq : Square) (c : CellState) : Board :=
  fun q => if q = sq then c else b q

/-- Source `Board::is_on_board`. -/
def is_on_board (sq : Square) : Bool :=
  decide (0 ≤ sq.x) && decide (sq.x < 10) && decide (0 ≤ sq.y) && decide (sq.y < 10)

/-- Source `Board::color_is_compatible`. -/
def color_is_compatible (on_position to_place : CellState) : Bool :=
  decide (on_position = EMPTY) ||
    (decide (on_position = BLACK_REGION) && decide (to_place = BLACK)) ||
    (decide (on_position = WHITE_REGION) && decide (to_place = WHITE))

/-- Source `Board::is_move_valid`: every form square on the board and compatible
with the colour the move would place. -/
def is_move_valid (b : Board) (m : Move) (player : Nat) : Bool :=
  m.form.all (fun sq => is_on_board sq && color_is_compatible (b sq) (get_square_color m player))

/-- Source `Board::place_color`: unconditionally write `color` into every square
of `form`. -/
def place_color (b : Board) (form : List Square) (color : CellState) : Board :=
  form.foldl (fun b sq => b.set sq color) b

/-- The all-empty board (`Board::Board`). -/
def empty_board : Board := fun _ => EMPTY

/-- One history entry (`PlayerAction`: acting player, encoded action id). -/
structure PlayerAction where
  player : Nat
  action : Nat
deriving DecidableEq

/-- Source `struct PlayerMove`: owner and decoded move of a placed building. -/
structure PlayerMove where
  player : Nat
  move : Move
deriving DecidableEq

/-- Source `common_buildings` (building indices usable by either player). -/
def common_buildings : List Nat := [0, 1, 2, 3, 4, 5, 10, 11, 12]

/-- Source `white_specific_buildings` (Cathedral, White Abbey, White Academy). -/
def white_specific_buildings : List Nat := [13, 7, 9]

/-- Source `black_specific_buildings` (Black Abbey, Black Academy). -/
def black_specific_buildings : List Nat := [6, 8]

/-- Source `Playerpieces::initialize_building_availability`: zero counts, then add
`how_many` for each common and each player-specific building type. -/
def init_avail (specific : List Nat) : Nat → Nat :=
  fun bt => (common_buildings ++ specific).foldl
    (fun acc t => if t = bt then acc + how_many t else acc) 0

/-- Both players' initial inventories (`CathedralState::CathedralState`
builds player 0 from the white-specific and player 1 from the
black-specific pool). -/
def init_players : Nat → Nat → Nat :=
  fun p => if p = 0 then init_avail white_specific_buildings
    else if p = 1 then init_avail black_specific_buildings
    else fun _ => 0

/-- The engine state (`class CathedralState`): board, the two inventories,
current player, history log and removed-move set. -/
structure CathedralState where
  board : Board
  players : Nat → Nat → Nat
  current_player_ : Nat
  history_ : List PlayerAction
  removed_moves : List PlayerMove

/-- The freshly constructed state (`CathedralGame::NewInitialState`). -/
def initial_state : CathedralState :=
  { board := empty_board
    players := init_players
    current_player_ := 0
    history_ := []
    removed_moves := [] }

/-- Source `CathedralState::is_piece_removed`: the (player, decoded move) pair is
in the removed set. -/
def is_piece_removed (rem : List PlayerMove) (pa : PlayerAction) : Bool :=
  rem.any (fun pm => decide (pm = ⟨pa.player, move_of pa.action⟩))

/-- Source `CathedralState::is_in_region`. -/
def is_in_region (pos : Square) (region : List Square) : Bool :=
  decide (pos ∈ region)

/-- Source `CathedralState::get_sub_color`: the territory state of a colour. -/
def get_sub_color (color : CellState) : CellState :=
  match color with
  | BLACK => BLACK_REGION
  | WHITE => WHITE_REGION
  | _ => EMPTY

/-- Source `CathedralState::get_all_enemy_buildings_in_region`: the non-removed
history moves whose anchor lies in the region and whose placed colour
differs from the sweep colour. -/
def get_all_enemy_buildings_in_region (s : CathedralState) (region : List Square)
    (enemy_color : CellState) : List PlayerMove :=
  s.history_.filterMap (fun pa =>
    if is_piece_removed s.removed_moves pa then none
    else
      let m := move_of pa.action
      if is_in_region m.pos region ∧ get_square_color m pa.player ≠ enemy_color
      then some ⟨pa.player, m⟩ else none)

/-- Source `Playerpieces::return_building`: increment the count, except the
Cathedral (building 13), which is never returned. -/
def return_building (inv : Nat → Nat → Nat) (p bt : Nat) : Nat → Nat → Nat :=
  if bt = 13 then inv
  else fun q b => if q = p ∧ b = bt then inv q b + 1 else inv q b

/-- Source `CathedralState::remove_move`: clear the building's on-board squares,
record the pair in the removed set, return the building to its owner. -/
def remove_move (s : CathedralState) (pm : PlayerMove) : CathedralState :=
  { s with
    board := pm.move.form.foldl
      (fun b sq => if is_on_board sq then b.set sq EMPTY else b) s.board
    removed_moves := s.removed_moves ++ [pm]
    players := return_building s.players pm.player pm.move.building_type }

/-- Source `CathedralState::process_region`: with fewer than two enemy buildings
inside, remove each of them and recolour the whole region to the sweep
colour's territory state; otherwise leave everything unchanged. -/
def process_region (s : CathedralState) (region : List Square)
    (color : CellState) : CathedralState :=
  let player_moves_in_region := get_all_enemy_buildings_in_region s region color
  if player_moves_in_region.length < 2 then
    let s1 := player_moves_in_region.foldl remove_move s
    { s1 with
      board := region.foldl (fun b sq => b.set sq (get_sub_color color)) s1.board }
  else s

/-- The flood-fill's visited mask (the local `field_without_color`, a
10x10 array of flags), as ten rows of ten flags, indexed `[y][x]`. -/
def Mask := List (List Bool)

/-- Read `field_without_color[y][x]` (only ever called on-board). -/
def Mask.get (mask : Mask) (x y : Nat) : Bool :=
  (mask.getD y []).getD x false

/-- Write `field_without_color[y][x] = 0`. -/
def Mask.clear (mask : Mask) (x y : Nat) : Mask :=
  mask.set y ((mask.getD y []).set x false)

/-- The initial mask of one colour sweep: a cell is free when the board
does not hold the sweep colour there. -/
def mask_of (b : Board) (color : CellState) : Mask :=
  (List.range 10).map (fun y =>
    (List.range 10).map (fun x =>
      decide (b ⟨(x : Int), (y : Int)⟩ ≠ color)))

/-- The eight neighbour offsets of the flood fill, in the source's loop
order (`dy` outer from -1 to 1, `dx` inner from -1 to 1, skipping (0,0)). -/
def flood_offsets : List (Int × Int) :=
  [(-1, -1), (0, -1), (1, -1), (-1, 0), (1, 0), (-1, 1), (0, 1), (1, 1)]

/-- One dequeue step of the flood fill: visit the eight neighbours of the
current cell in order, enqueueing every on-board neighbour still marked
free and clearing its mask flag.  The found cells and the mask are
threaded as separate accumulators. -/
def flood_step : List (Int × Int) → Square → List Square → Mask → List Square × Mask
  | [], _, found, mask => (found, mask)
  | d :: offs, cur, found, mask =>
    let sq : Square := ⟨cur.x + d.1, cur.y + d.2⟩
    if is_on_board sq && mask.get sq.x.toNat sq.y.toNat then
      flood_step offs cur (found ++ [sq]) (mask.clear sq.x.toNat sq.y.toNat)
    else flood_step offs cur found mask

/-- The BFS of `CathedralState::build_regions`, collecting one maximal
region of free cells.  Each enqueued cell clears one mask flag, so at
most 100 cells are ever enqueued; the fuel (always called with 200) is
only a termination bound and is never exhausted. -/
def flood_fill : Nat → List Square → Mask → List Square → List Square × Mask
  | 0, _, mask, region => (region, mask)
  | _ + 1, [], mask, region => (region, mask)
  | fuel + 1, cur :: queue, mask, region =>
    match flood_step flood_offsets cur [] mask with
    | (found, mask2) => flood_fill fuel (queue ++ found) mask2 (region ++ [cur])

/-- The runner loop of one colour pass: scan the 100 cells in row-major
order and process each still-free maximal region. -/
def sweep_go (color : CellState) : List Nat → CathedralState → Mask → CathedralState
  | [], s, _ => s
  | idx :: rest, s, mask =>
    let x : Nat := idx % 10
    let y : Nat := idx / 10
    if mask.get x y then
      match flood_fill 200 [⟨(x : Int), (y : Int)⟩] (mask.clear x y) [] with
      | (region, mask2) => sweep_go color rest (process_region s region color) mask2
    else sweep_go color rest s mask

/-- One colour pass of `CathedralState::build_regions`. -/
def sweep_color (s : CathedralState) (color : CellState) : CathedralState :=
  sweep_go color (List.range 100) s (mask_of s.board color)

/-- Source `CathedralState::build_regions`: the black sweep, then the white sweep
over the board the black sweep may already have mutated. -/
def build_regions (s : CathedralState) : CathedralState :=
  match sweep_color s BLACK with
  | ⟨b, pl, cp, hist, rem⟩ => sweep_color ⟨b, pl, cp, hist, rem⟩ WHITE

/-- Source `CathedralState::place_building`: paint the form, and once more than
two moves exist, run the capture sweep when at least two corner squares
are off-board or already the placed colour (with `get_move_count() == 3`
every corner counts). -/
def place_building (s : CathedralState) (m : Move) : CathedralState :=
  let color := get_square_color m s.current_player_
  let board1 := place_color s.board m.form color
  let s1 := { s with board := board1 }
  if 2 < s.history_.length then
    let connections := m.corners.countP (fun sq =>
      !(is_on_board sq) || decide (board1 sq = color) || decide (s.history_.length = 3))
    if 2 ≤ connections then build_regions s1 else s1
  else s1

/-- Source `Playerpieces::use_building`: throws (`none`) when the type is
exhausted, otherwise decrements the count. -/
def use_building (inv : Nat → Nat → Nat) (p bt : Nat) : Option (Nat → Nat → Nat) :=
  if 0 < inv p bt then
    some (fun q b => if q = p ∧ b = bt then inv q b - 1 else inv q b)
  else none

/-- Source `Playerpieces::get_available_building_types`: indices 0..13 with a
positive remaining count, ascending. -/
def get_available_building_types (s : CathedralState) (p : Nat) : List Nat :=
  (List.range 14).filter (fun bt => decide (0 < s.players p bt))

/-- Source `CathedralState::get_possible_moves(type, player)`: empty when the
type is unavailable, else every anchor (y outer, x inner) and rotation
index up to the symmetry class that passes `Board::is_move_valid`. -/
def get_possible_moves_of_type (s : CathedralState) (bt p : Nat) : List Move :=
  if 0 < s.players p bt then
    ((List.range 10).flatMap (fun y =>
      (List.range 10).flatMap (fun x =>
        (List.range (turnable bt + 1)).map (fun r =>
          (⟨⟨(x : Int), (y : Int)⟩, bt, r⟩ : Move))))).filter
      (fun m => is_move_valid s.board m p)
  else []

/-- Source `CathedralState::generate_all_possible_moves`: concatenate the moves
of every available building type of the current player. -/
def generate_all_possible_moves (s : CathedralState) : List Move :=
  (get_available_building_types s s.current_player_).flatMap
    (fun bt => get_possible_moves_of_type s bt s.current_player_)

/-- Source `CathedralState::get_possible_moves(player)`: empty for anyone but the
current player; the game's very first move is restricted to the first
white-specific building (the Cathedral). -/
def get_possible_moves (s : CathedralState) (p : Nat) : List Move :=
  if p ≠ s.current_player_ then []
  else if s.history_.length = 0 then
    get_possible_moves_of_type s (white_specific_buildings.getD 0 0) p
  else generate_all_possible_moves s

/-- Source `CathedralState::update_current_player`: pass the turn to the other
player exactly when they have a legal move for some available type. -/
def update_current_player (s : CathedralState) : CathedralState :=
  let next := (s.current_player_ + 1) % 2
  let has_moves := (get_available_building_types s next).any
    (fun bt => !(get_possible_moves_of_type s bt next).isEmpty)
  if has_moves then { s with current_player_ := next } else s

/-- Source `CathedralState::make_unvalidated_move`: paint the board (running the
capture sweep), consume the building, advance the turn.  The
intermediate states are destructured so each is computed once. -/
def make_unvalidated_move (s : CathedralState) (m : Move) : Option CathedralState :=
  match place_building s m with
  | ⟨b, pl, cp, hist, rem⟩ =>
    match use_building pl cp m.building_type with
    | none => none
    | some inv =>
      match update_current_player ⟨b, inv, cp, hist, rem⟩ with
      | ⟨b2, pl2, cp2, hist2, rem2⟩ => some ⟨b2, pl2, cp2, hist2, rem2⟩

/-- Source `CathedralState::make_move`: reject (returning `false` and the
untouched state) when the board check fails, else apply. -/
def make_move (s : CathedralState) (m : Move) : Option (CathedralState × Bool) :=
  if is_move_valid s.board m s.current_player_ then
    (make_unvalidated_move s m).map (fun s1 => (s1, true))
  else some (s, false)

/-- Source `CathedralState::is_finished`: neither the current player nor the
other has a legal move with any available building type. -/
def is_finished (s : CathedralState) : Bool :=
  ([0, 1] : List Nat).all (fun i =>
    (get_available_building_types s ((s.current_player_ + i) % 2)).all
      (fun bt => (get_possible_moves_of_type s bt ((s.current_player_ + i) % 2)).isEmpty))

/-- The loop body of `CathedralState::calc_score`: walk the history,
subtracting each non-removed move's occupied-square count from its
colour's score. -/
def score_go (rem : List PlayerMove) : List PlayerAction → Int × Int → Int × Int
  | [], acc => acc
  | pa :: rest, acc =>
    if is_piece_removed rem pa then score_go rem rest acc
    else
      let m := move_of pa.action
      match get_square_color m pa.player with
      | BLACK => score_go rem rest (acc.1, acc.2 - m.form.length)
      | WHITE => score_go rem rest (acc.1 - m.form.length, acc.2)
      | _ => score_go rem rest acc

/-- Source `CathedralState::calc_score`: both players start at 47. -/
def calc_score (s : CathedralState) : Int × Int :=
  score_go s.removed_moves s.history_ (47, 47)

/-- Source `CathedralState::Returns` (utilities indexed white then black; the
doubles of the source only ever hold -1, 0, 1 and are modelled as `Int`). -/
def Returns (s : CathedralState) : Int × Int :=
  if is_finished s then
    if (calc_score s).1 < (calc_score s).2 then (1, -1)
    else if (calc_score s).2 < (calc_score s).1 then (-1, 1)
    else (0, 0)
  else (0, 0)

/-- Insert into an ascending list (helper for the `std::sort` call of
`CathedralState::LegalActions`; a structurally recursive sort whose
result is the same ascending reordering). -/
def insert_sorted (a : Int) : List Int → List Int
  | [] => [a]
  | b :: l => if a ≤ b then a :: b :: l else b :: insert_sorted a l

/-- Ascending insertion sort. -/
def sort_ascending (l : List Int) : List Int :=
  l.foldr insert_sorted []

/-- Source `CathedralState::LegalActions`: the current player's possible moves,
encoded and sorted ascending. -/
def LegalActions (s : CathedralState) : List Int :=
  sort_ascending ((get_possible_moves s s.current_player_).map Move.encode)

/-- Source `State::ApplyAction` around `CathedralState::DoApplyAction`.
Modelled from the spec: the history log itself lives in the OpenSpiel
framework base class (not in this repository's sources), which the spec
describes as an append-only sequence of (acting player, encoded move)
pairs appended after the move is applied; `DoApplyAction` ignores
`make_move`'s boolean. -/
def applyAction (s : CathedralState) (a : Nat) : Option CathedralState :=
  match decode_move a with
  | none => none
  | some m =>
    match make_move s m with
    | none => none
    | some (⟨b, pl, cp, _hist, rem⟩, _ok) =>
      some ⟨b, pl, cp, s.history_ ++ [⟨s.current_player_, a⟩], rem⟩

/-- Apply a list of encoded actions from a state. -/
def runGame (s : CathedralState) (acts : List Nat) : Option CathedralState :=
  acts.foldlM applyAction s

/-- Source `CathedralState::undo_move`: pop the last history entry, reset the
board, the inventories, the removed set and the current player, then
replay every remaining entry through `make_unvalidated_move` (the
replayed entries are already all in `history_` while this runs). -/
def undo_move (s : CathedralState) : Option CathedralState :=
  if s.history_.isEmpty then some s
  else
    let hist := s.history_.dropLast
    let base : CathedralState :=
      { board := empty_board
        players := init_players
        current_player_ := 0
        history_ := hist
        removed_moves := [] }
    hist.foldlM (fun st pa =>
      match decode_move pa.action with
      | none => none
      | some m => make_unvalidated_move st m) base

/-- Spec-side: the owning colour of a territory cell, if any. -/
def spec_territory_owner : CellState → Option CellState
  | BLACK_REGION => some BLACK
  | WHITE_REGION => some WHITE
  | _ => none

/-- Spec-side compatibility: the cell is empty, or it is a territory cell
whose owning colour matches the colour being placed. -/
def spec_compatible (cell col : CellState) : Prop :=
  cell = EMPTY ∨ spec_territory_owner cell = some col

/-- Spec-side: orthogonal adjacency of two squares. -/
def spec_orth_adjacent (q f : Square) : Prop :=
  (q.x - f.x).natAbs + (q.y - f.y).natAbs = 1

/-- Spec-side: adjacency orthogonally or diagonally (distinct squares at
Chebyshev distance at most one). -/
def spec_adjacent8 (q f : Square) : Prop :=
  q ≠ f ∧ (q.x - f.x).natAbs ≤ 1 ∧ (q.y - f.y).natAbs ≤ 1

instance (q f : Square) : Decidable (spec_orth_adjacent q f) := by
  unfold spec_orth_adjacent; infer_instance

instance (q f : Square) : Decidable (spec_adjacent8 q f) := by
  unfold spec_adjacent8; infer_instance

instance (cell col : CellState) : Decidable (spec_compatible cell col) := by
  unfold spec_compatible; infer_instance

/-- Spec-side: player `p` has at least one legal placement in state `s`,
over all building types still available to them, all board anchors and
all rotation indices permitted by the type's symmetry class. -/
def spec_has_placement (s : CathedralState) (p : Nat) : Prop :=
  ∃ bt, bt < 14 ∧ 0 < s.players p bt ∧
    ∃ x y r : Nat, x < 10 ∧ y < 10 ∧ r ≤ turnable bt ∧
      is_move_valid s.board ⟨⟨(x : Int), (y : Int)⟩, bt, r⟩ p = true

/-- Spec-side: the total occupied-square count of player `p`'s
non-removed, non-neutral (non-Cathedral) history moves. -/
def spec_deficit (rem : List PlayerMove) (p : Nat) (l : List PlayerAction) : Nat :=
  ((l.filter (fun pa =>
      !(is_piece_removed rem pa) && pa.player == p &&
        !((move_of pa.action).building_type == 13))).map
    (fun pa => (move_of pa.action).form.length)).sum

/-- Spec-side deficit of a state. -/
def player_deficit (s : CathedralState) (p : Nat) : Nat :=
  spec_deficit s.removed_moves p s.history_

/-- A board with every cell neutral-occupied: no placement is compatible
anywhere, so the position is finished. -/
def all_blue_board : Board := fun _ => BLUE

/-- A concrete finished position: every cell neutral-occupied, both
inventories exhausted (so neither player has an available building type,
let alone a legal placement), one black Tavern in the history (action
18), nothing removed.  White's score is 47, black's 46. -/
def c1_state : CathedralState :=
  { board := all_blue_board
    players := fun _ _ => 0
    current_player_ := 0
    history_ := [⟨1, 18⟩]
    removed_moves := [] }

/-- A state whose board refuses every placement (for the invalid-move
theorems). -/
def c9_state : CathedralState :=
  { initial_state with board := all_blue_board }

/-- A structurally valid Tavern move at the origin. -/
def c9_move : Move := ⟨⟨0, 0⟩, 0, 0⟩

/-- The opening Cathedral placement at (5,5). -/
def c8_move : Move := ⟨⟨5, 5⟩, 13, 0⟩

/-- The state after the opening Cathedral placement. -/
def c8_after : CathedralState :=
  (make_unvalidated_move initial_state c8_move).getD initial_state

/-- The four-move game of the undo counterexample: Cathedral at (5,5)
(action 5255), black Inn rotated 90 degrees at (1,0) sealing the corner
pocket (0,0) (action 901), white Tavern at (8,8) (action 88), black
Tavern at (8,1) (action 18). -/
def c3_actions : List Nat := [5255, 901, 88, 18]

/-- The position before the fourth move of the undo counterexample. -/
def c3_before : Option CathedralState := runGame initial_state [5255, 901, 88]

/-- The history the engine records for the four counterexample moves
(players alternate 0, 1, 0, 1 in this opening). -/
def c3_hist : List PlayerAction := [⟨0, 5255⟩, ⟨1, 901⟩, ⟨0, 88⟩, ⟨1, 18⟩]

/-- The history of the position before the fourth move. -/
def c3_hist3 : List PlayerAction := [⟨0, 5255⟩, ⟨1, 901⟩, ⟨0, 88⟩]

/-- An action id is among the engine's legal actions of a state. -/
def is_legal_action (s : CathedralState) (a : Nat) : Bool :=
  (LegalActions s).contains (Int.ofNat a)

/-- An action decodes and passes the checks `make_move` and
`use_building` apply when it is played: the board accepts the decoded
move for the current player and the building is still available. -/
def can_apply (s : CathedralState) (a : Nat) : Bool :=
  match decode_move a with
  | none => false
  | some m =>
    is_move_valid s.board m s.current_player_ &&
      decide (0 < s.players s.current_player_ m.building_type)

theorem turnable_le (bt : Nat) : turnable bt ≤ 3 := by
  unfold turnable
  split <;> omega

theorem square_add_def (a b c d : Int) :
    (⟨a, b⟩ : Square) + ⟨c, d⟩ = ⟨a + c, b + d⟩ := rfl

theorem mem_neighbors4 (q f : Square) : q ∈ neighbors4 f ↔ spec_orth_adjacent q f := by
  cases q with
  | mk qx qy =>
    cases f with
    | mk fx fy =>
      simp only [neighbors4, spec_orth_adjacent, List.mem_cons, List.not_mem_nil,
        or_false, Square.mk.injEq]
      omega

theorem mem_corner_list (F : List Square) (q : Square) :
    q ∈ corner_list F ↔ (∃ f ∈ F, spec_orth_adjacent q f) ∧ q ∉ F := by
  simp only [corner_list, List.mem_dedup, List.mem_filter, List.mem_flatMap,
    decide_eq_true_eq, mem_neighbors4]

theorem square_add_right_cancel {a b p : Square} (h : a + p = b + p) : a = b := by
  cases a; cases b; cases p
  simp only [square_add_def, Square.mk.injEq] at h ⊢
  omega

theorem spec_orth_adjacent_translate (q f p : Square) :
    spec_orth_adjacent (q + p) (f + p) ↔ spec_orth_adjacent q f := by
  cases q; cases f; cases p
  simp only [square_add_def, spec_orth_adjacent]
  omega

/-- C5 (amended).  For every building type, rotation index and anchor, the
precomputed corner set (translated by the anchor, exactly as the form is)
consists of the squares orthogonally adjacent to at least one square of
the translated form and not themselves part of the form.  (The source
inserts only the four orthogonal neighbours of each form square, so —
contrary to the spec sentence — diagonally-only adjacent squares are not
corners.) -/
theorem C5_corners_characterization (bt r : Nat) (pos q : Square) :
    q ∈ Move.corners ⟨pos, bt, r⟩ ↔
      ((∃ f ∈ Move.form ⟨pos, bt, r⟩, spec_orth_adjacent q f) ∧
        q ∉ Move.form ⟨pos, bt, r⟩) := by
  simp only [Move.corners, Move.form, corners_of, List.mem_map]
  constructor
  · rintro ⟨c, hc, rfl⟩
    rcases (mem_corner_list _ c).mp hc with ⟨⟨f, hf, hadj⟩, hnot⟩
    refine ⟨⟨f + pos, ⟨f, hf, rfl⟩, ?_⟩, ?_⟩
    · exact (spec_orth_adjacent_translate c f pos).mpr hadj
    · rintro ⟨g, hg, hgeq⟩
      exact hnot (square_add_right_cancel hgeq ▸ hg)
  · rintro ⟨⟨f', ⟨f, hf, rfl⟩, hadj⟩, hnot⟩
    refine ⟨⟨q.x - pos.x, q.y - pos.y⟩, ?_, ?_⟩
    · refine (mem_corner_list _ _).mpr ⟨⟨f, hf, ?_⟩, ?_⟩
      · rcases q with ⟨qx, qy⟩; rcases pos with ⟨px, py⟩; rcases f with ⟨fx, fy⟩
        simp only [square_add_def, spec_orth_adjacent] at hadj ⊢
        omega
      · intro hmem
        refine hnot ⟨_, hmem, ?_⟩
        rcases q with ⟨qx, qy⟩; rcases pos with ⟨px, py⟩
        simp only [square_add_def, Square.mk.injEq]
        omega
    · rcases q with ⟨qx, qy⟩; rcases pos with ⟨px, py⟩
      simp only [square_add_def, Square.mk.injEq]
      omega

/-- C5, the claim as stated, is false: the spec characterises corners by
orthogonal-or-diagonal adjacency, but for the Tavern (building 0) at the
origin the diagonally adjacent square (1,1) is not in the precomputed
corner set. -/
theorem C5_counterexample :
    ¬ (∀ (bt r : Nat) (pos q : Square), bt < 14 → r ≤ turnable bt →
        (q ∈ Move.corners ⟨pos, bt, r⟩ ↔
          ((∃ f ∈ Move.form ⟨pos, bt, r⟩, spec_adjacent8 q f) ∧
            q ∉ Move.form ⟨pos, bt, r⟩))) := by
  intro h
  have h1 := (h 0 0 ⟨0, 0⟩ ⟨1, 1⟩ (by decide) (by decide)).mpr
  have h2 : (⟨1, 1⟩ : Square) ∈ Move.corners ⟨⟨0, 0⟩, 0, 0⟩ := by
    refine h1 ⟨⟨⟨0, 0⟩, by decide, by decide⟩, by decide⟩
  exact absurd h2 (by decide)

theorem color_is_compatible_iff (c v : CellState) :
    color_is_compatible c v = true ↔ spec_compatible c v := by
  cases c <;> cases v <;>
    simp [color_is_compatible, spec_compatible, spec_territory_owner]

/-- C7 (confirmed).  `is_move_valid` holds exactly when every square of
the move's form lies on the 10x10 grid and the present cell is
compatible with the colour the move would place — compatible meaning
empty, or a territory cell owned by that colour; and the neutral colour
(Cathedral placements) is compatible only with empty cells. -/
theorem C7_is_move_valid_characterization :
    (∀ (b : Board) (m : Move) (p : Nat),
        is_move_valid b m p = true ↔
          ∀ sq ∈ m.form, is_on_board sq = true ∧
            spec_compatible (b sq) (get_square_color m p)) ∧
    (∀ cell, spec_compatible cell BLUE ↔ cell = EMPTY) := by
  constructor
  · intro b m p
    simp only [is_move_valid, List.all_eq_true, Bool.and_eq_true,
      color_is_compatible_iff]
  · intro cell
    cases cell <;> simp [spec_compatible, spec_territory_owner]

/-- C9 (confirmed).  Applying a structurally valid move that fails the
board's legality check reports `false` and leaves the state untouched:
board, inventories, removed set and current player are exactly as
before. -/
theorem C9_invalid_move_no_mutation (s : CathedralState) (m : Move)
    (h : is_move_valid s.board m s.current_player_ = false) :
    make_move s m = some (s, false) := by
  simp [make_move, h]

theorem C9_witness :
    is_move_valid c9_state.board c9_move c9_state.current_player_ = false ∧
      make_move c9_state c9_move = some (c9_state, false) :=
  ⟨by decide, C9_invalid_move_no_mutation c9_state c9_move (by decide)⟩

/-- C10 (confirmed).  The legal-move query for any player other than the
current one returns the empty list, regardless of inventories or board. -/
theorem C10_only_current_player_moves (s : CathedralState) (p : Nat)
    (h : p ≠ s.current_player_) : get_possible_moves s p = [] := by
  simp [get_possible_moves, h]

theorem C10_witness :
    (1 : Nat) ≠ initial_state.current_player_ ∧
      get_possible_moves initial_state 1 = [] :=
  ⟨by decide, C10_only_current_player_moves initial_state 1 (by decide)⟩

/-- C4 (confirmed).  The encoding
`id = buildingType*100*4 + rot*100 + y*10 + x` is a bijection between
validly-rotated (building type, rotation, on-board anchor) triples and
their action ids: decoding the encoding of such a triple succeeds and
returns it unchanged, and any id below 5600 whose decoding succeeds
re-encodes to itself (hence `decode (encode (decode a)) = decode a`). -/
theorem C4_encode_decode_bijection :
    (∀ bt r x y : Nat, bt < 14 → r ≤ turnable bt → x < 10 → y < 10 →
        decode_move (bt * 400 + r * 100 + y * 10 + x) =
          some ⟨⟨(x : Int), (y : Int)⟩, bt, r⟩ ∧
        Move.encode ⟨⟨(x : Int), (y : Int)⟩, bt, r⟩ =
          ((bt * 400 + r * 100 + y * 10 + x : Nat) : Int)) ∧
    (∀ a : Nat, a < 5600 → ∀ m, decode_move a = some m →
        Move.encode m = (a : Int) ∧ decode_move (Move.encode m).toNat = some m) := by
  constructor
  · intro bt r x y h1 h2 h3 h4
    have hr : r ≤ 3 := le_trans h2 (turnable_le bt)
    have e1 : (bt * 400 + r * 100 + y * 10 + x) / 400 = bt := by omega
    have e2 : ((bt * 400 + r * 100 + y * 10 + x) % 400) / 100 = r := by omega
    have e3 : ((bt * 400 + r * 100 + y * 10 + x) % 100) / 10 = y := by omega
    have e4 : (bt * 400 + r * 100 + y * 10 + x) % 10 = x := by omega
    constructor
    · simp only [decode_move, e1, e2, e3, e4]
      rw [if_pos ⟨h1, h2⟩]
    · simp only [Move.encode]
      push_cast
      ring
  · intro a ha m hm
    unfold decode_move at hm
    by_cases hc : a / 400 < 14 ∧ (a % 400) / 100 ≤ turnable (a / 400)
    · rw [if_pos hc] at hm
      cases hm
      constructor
      · simp only [Move.encode]
        omega
      · have henc :
            (Move.encode ⟨⟨((a % 10 : Nat) : Int), ((a % 100 / 10 : Nat) : Int)⟩,
              a / 400, a % 400 / 100⟩).toNat = a := by
          simp only [Move.encode]
          omega
        rw [henc]
        simp only [decode_move]
        rw [if_pos hc]
    · rw [if_neg hc] at hm
      exact absurd hm (by simp)

theorem C4_witness :
    decode_move 901 = some ⟨⟨1, 0⟩, 2, 1⟩ ∧ Move.encode ⟨⟨1, 0⟩, 2, 1⟩ = 901 := by
  have h := C4_encode_decode_bijection.1 2 1 1 0 (by decide) (by decide) (by decide) (by decide)
  exact ⟨h.1, h.2⟩

/-- C6 (amended).  Every action id below 5600 decodes to a building index
below 14, but decoding succeeds exactly when the decoded rotation index
is within the building's symmetry class — ids with an out-of-range
rotation are rejected by the `Move` constructor's invalid-argument
error (modelled as `none`), not handled as an invalid-move report.  When
decoding succeeds, the engine either reports boolean failure with no
state change, applies the move, or fails on building unavailability. -/
theorem C6_action_space_handling (a : Nat) (ha : a < 5600) :
    a / 400 < 14 ∧
    ((decode_move a).isSome = true ↔ (a % 400) / 100 ≤ turnable (a / 400)) ∧
    (∀ m, decode_move a = some m → ∀ s,
        make_move s m = some (s, false) ∨
        (∃ s1, make_move s m = some (s1, true)) ∨
        make_move s m = none) := by
  refine ⟨by omega, ?_, ?_⟩
  · unfold decode_move
    by_cases hc : a / 400 < 14 ∧ (a % 400) / 100 ≤ turnable (a / 400)
    · rw [if_pos hc]
      simp [hc.2]
    · rw [if_neg hc]
      simp only [Option.isSome_none, Bool.false_eq_true, false_iff]
      intro hr
      exact hc ⟨by omega, hr⟩
  · intro m _ s
    unfold make_move
    by_cases hv : is_move_valid s.board m s.current_player_ = true
    · rcases hmu : make_unvalidated_move s m with _ | s1
      · right; right
        simp [hv, hmu]
      · right; left
        exact ⟨s1, by simp [hv, hmu]⟩
    · left
      simp [hv]

theorem C6_witness :
    (100 : Nat) / 400 < 14 ∧
      ((decode_move 100).isSome = true ↔ (100 % 400) / 100 ≤ turnable (100 / 400)) :=
  ⟨(C6_action_space_handling 100 (by decide)).1,
    (C6_action_space_handling 100 (by decide)).2.1⟩

/-- C6, the claim as stated, is false: action id 100 lies in the action
space (it decodes to the Tavern with rotation index 1, beyond the
Tavern's symmetry class 0), yet the engine rejects it through the `Move`
constructor's invalid-argument error — modelled as a `none` decode — and
never reaches the invalid-move report. -/
theorem C6_counterexample : (100 : Nat) < 5600 ∧ decode_move 100 = none :=
  ⟨by decide, by decide⟩

theorem foldl_board_set (xs : List Square) (b : Board) (c : CellState) (sq : Square) :
    (xs.foldl (fun b q => b.set q c) b) sq = if sq ∈ xs then c else b sq := by
  induction xs generalizing b with
  | nil => simp
  | cons x xs ih =>
    simp only [List.foldl_cons, ih, List.mem_cons]
    by_cases h1 : sq ∈ xs
    · simp [h1]
    · by_cases h2 : sq = x
      · simp [h1, h2, Board.set]
      · simp [h1, h2, Board.set]

theorem foldl_board_clear (xs : List Square) (b : Board) (sq : Square) :
    (xs.foldl (fun b q => if is_on_board q then b.set q EMPTY else b) b) sq =
      if sq ∈ xs ∧ is_on_board sq = true then EMPTY else b sq := by
  induction xs generalizing b with
  | nil => simp
  | cons x xs ih =>
    simp only [List.foldl_cons, ih, List.mem_cons]
    by_cases h1 : sq ∈ xs ∧ is_on_board sq = true
    · simp [h1]
    · by_cases h2 : sq = x
      · subst h2
        by_cases h3 : is_on_board sq = true
        · simp [h1, h3, Board.set]
        · simp [h1, h3]
      · have hcond : ¬ ((sq = x ∨ sq ∈ xs) ∧ is_on_board sq = true) := by
          rintro ⟨h4 | h4, h5⟩
          · exact h2 h4
          · exact h1 ⟨h4, h5⟩
        by_cases h3 : is_on_board x = true
        · have hset : (b.set x EMPTY) sq = b sq := by
            simp [Board.set, h2]
          simp [h3, h1, hset, hcond]
        · simp [h3, h1, hcond]

theorem process_region_eq (s : CathedralState) (region : List Square) (c : CellState) :
    process_region s region c =
      if (get_all_enemy_buildings_in_region s region c).length < 2 then
        { (get_all_enemy_buildings_in_region s region c).foldl remove_move s with
          board := region.foldl (fun b sq => b.set sq (get_sub_color c))
            ((get_all_enemy_buildings_in_region s region c).foldl remove_move s).board }
      else s := rfl

/-- C2 (confirmed).  For any region swept for colour `c`: with two or
more enemy buildings (non-removed history moves anchored inside whose
placed colour differs from `c`) the region is left entirely unchanged;
with fewer than two, every square of the region is recoloured to `c`'s
territory state, every on-board square of a found enemy building outside
the region is cleared to empty (other cells untouched), each found
enemy's (player, move) pair is appended to the removed set, and each
found enemy building is returned to its owner's inventory except the
Cathedral, which is never returned. -/
theorem C2_process_region_capture (s : CathedralState) (region : List Square)
    (c : CellState) :
    (2 ≤ (get_all_enemy_buildings_in_region s region c).length →
        process_region s region c = s) ∧
    ((get_all_enemy_buildings_in_region s region c).length < 2 →
        (∀ sq ∈ region, (process_region s region c).board sq = get_sub_color c) ∧
        (∀ sq, sq ∉ region →
          ((∃ e ∈ get_all_enemy_buildings_in_region s region c,
              sq ∈ e.move.form ∧ is_on_board sq = true) →
            (process_region s region c).board sq = EMPTY) ∧
          ((¬ ∃ e ∈ get_all_enemy_buildings_in_region s region c,
              sq ∈ e.move.form ∧ is_on_board sq = true) →
            (process_region s region c).board sq = s.board sq)) ∧
        ((process_region s region c).removed_moves =
          s.removed_moves ++ get_all_enemy_buildings_in_region s region c) ∧
        (∀ p b, (process_region s region c).players p b =
          s.players p b + (get_all_enemy_buildings_in_region s region c).countP
            (fun e => decide (e.player = p ∧ e.move.building_type = b ∧ b ≠ 13)))) := by
  constructor
  · intro h
    rw [process_region_eq, if_neg (by omega)]
  · intro h
    rw [process_region_eq, if_pos h]
    rcases hE : get_all_enemy_buildings_in_region s region c with _ | ⟨e, rest⟩
    · refine ⟨?_, ?_, ?_, ?_⟩
      · intro sq hsq
        simp only [hE, List.foldl_nil, foldl_board_set, if_pos hsq]
      · intro sq hsq
        constructor
        · rintro ⟨e, he, -⟩
          simp at he
        · intro _
          simp only [hE, List.foldl_nil, foldl_board_set, if_neg hsq]
      · simp [hE]
      · intro p b
        simp [hE]
    · rcases rest with _ | ⟨f, rest⟩
      · refine ⟨?_, ?_, ?_, ?_⟩
        · intro sq hsq
          simp only [hE, List.foldl_cons, List.foldl_nil, foldl_board_set, if_pos hsq]
        · intro sq hsq
          constructor
          · rintro ⟨e', he', hin, hob⟩
            simp only [List.mem_singleton] at he'
            subst he'
            simp only [List.foldl_cons, List.foldl_nil, foldl_board_set,
              if_neg hsq, remove_move, foldl_board_clear, if_pos (And.intro hin hob)]
          · intro hno
            have hnot : ¬ (sq ∈ e.move.form ∧ is_on_board sq = true) := by
              intro hc2
              exact hno ⟨e, List.mem_singleton_self e, hc2.1, hc2.2⟩
            simp only [List.foldl_cons, List.foldl_nil, foldl_board_set,
              if_neg hsq, remove_move, foldl_board_clear, if_neg hnot]
        · simp [remove_move]
        · intro p b
          have hplayers :
              ({ (([e] : List PlayerMove).foldl remove_move s) with
                board := region.foldl (fun b sq => b.set sq (get_sub_color c))
                  (([e] : List PlayerMove).foldl remove_move s).board } :
                CathedralState).players =
              return_building s.players e.player e.move.building_type := rfl
          rw [hplayers]
          unfold return_building
          by_cases h13 : e.move.building_type = 13
          · rw [if_pos h13]
            have hc : List.countP
                (fun e0 => decide (e0.player = p ∧ e0.move.building_type = b ∧ b ≠ 13))
                [e] = 0 := by
              simp only [List.countP_cons, List.countP_nil]
              have hd : decide (e.player = p ∧ e.move.building_type = b ∧ b ≠ 13) = false := by
                simp only [decide_eq_false_iff_not]
                rintro ⟨-, rfl, hb⟩
                exact hb h13
              simp [hd]
            rw [hc]
            omega
          · rw [if_neg h13]
            by_cases hpb : p = e.player ∧ b = e.move.building_type
            · have hc : List.countP
                  (fun e0 => decide (e0.player = p ∧ e0.move.building_type = b ∧ b ≠ 13))
                  [e] = 1 := by
                simp only [List.countP_cons, List.countP_nil]
                have hd : decide (e.player = p ∧ e.move.building_type = b ∧ b ≠ 13) = true := by
                  simp only [decide_eq_true_eq]
                  exact ⟨hpb.1.symm, hpb.2.symm, fun hb => h13 (hpb.2 ▸ hb)⟩
                simp [hd]
              rw [hc, if_pos hpb]
            · have hc : List.countP
                  (fun e0 => decide (e0.player = p ∧ e0.move.building_type = b ∧ b ≠ 13))
                  [e] = 0 := by
                simp only [List.countP_cons, List.countP_nil]
                have hd : decide (e.player = p ∧ e.move.building_type = b ∧ b ≠ 13) = false := by
                  simp only [decide_eq_false_iff_not]
                  rintro ⟨hp, hb, -⟩
                  exact hpb ⟨hp.symm, hb.symm⟩
                simp [hd]
              rw [hc, if_neg hpb]
              omega
      · exfalso
        rw [hE] at h
        simp at h
        omega

theorem C2_witness :
    (get_all_enemy_buildings_in_region initial_state [⟨0, 0⟩] BLACK).length < 2 ∧
      (process_region initial_state [⟨0, 0⟩] BLACK).board ⟨0, 0⟩ = BLACK_REGION :=
  ⟨by decide,
    ((C2_process_region_capture initial_state [⟨0, 0⟩] BLACK).2 (by decide)).1
      ⟨0, 0⟩ (by decide)⟩

theorem foldl_remove_move_current (E : List PlayerMove) (s : CathedralState) :
    (E.foldl remove_move s).current_player_ = s.current_player_ := by
  induction E generalizing s with
  | nil => rfl
  | cons e E ih => simp only [List.foldl_cons, ih, remove_move]

theorem process_region_current (s : CathedralState) (region : List Square)
    (c : CellState) :
    (process_region s region c).current_player_ = s.current_player_ := by
  rw [process_region_eq]
  split
  · exact foldl_remove_move_current _ s
  · rfl

theorem sweep_go_current (c : CellState) (idxs : List Nat) (s : CathedralState)
    (mask : Mask) :
    (sweep_go c idxs s mask).current_player_ = s.current_player_ := by
  induction idxs generalizing s mask with
  | nil => rfl
  | cons i idxs ih =>
    simp only [sweep_go]
    by_cases hm : mask.get (i % 10) (i / 10) = true
    · rw [if_pos hm]
      rcases hf : flood_fill 200 [⟨((i % 10 : Nat) : Int), ((i / 10 : Nat) : Int)⟩]
          (mask.clear (i % 10) (i / 10)) [] with ⟨region, mask2⟩
      rw [ih]
      exact process_region_current ..
    · rw [if_neg hm]
      exact ih ..

theorem sweep_color_current (s : CathedralState) (c : CellState) :
    (sweep_color s c).current_player_ = s.current_player_ :=
  sweep_go_current ..

theorem build_regions_current (s : CathedralState) :
    (build_regions s).current_player_ = s.current_player_ := by
  unfold build_regions
  rcases hb : sweep_color s BLACK with ⟨b, pl, cp, hist, rem⟩
  have h2 := sweep_color_current s BLACK
  rw [hb] at h2
  rw [sweep_color_current]
  exact h2

theorem place_building_current (s : CathedralState) (m : Move) :
    (place_building s m).current_player_ = s.current_player_ := by
  simp only [place_building]
  split
  · split
    · exact build_regions_current _
    · rfl
  · rfl

theorem isEmpty_false_of_mem {α : Type} {l : List α} {a : α} (h : a ∈ l) :
    l.isEmpty = false := by
  cases l with
  | nil => simp at h
  | cons x xs => rfl

theorem mem_get_possible_moves_of_type (s : CathedralState) (bt p : Nat) (m : Move) :
    m ∈ get_possible_moves_of_type s bt p ↔
      0 < s.players p bt ∧
        (∃ x y r : Nat, x < 10 ∧ y < 10 ∧ r ≤ turnable bt ∧
          m = ⟨⟨(x : Int), (y : Int)⟩, bt, r⟩) ∧
        is_move_valid s.board m p = true := by
  unfold get_possible_moves_of_type
  by_cases hav : 0 < s.players p bt
  · rw [if_pos hav]
    simp only [List.mem_filter, List.mem_flatMap, List.mem_map, List.mem_range]
    constructor
    · rintro ⟨⟨y, hy, x, hx, r, hr, rfl⟩, hv⟩
      exact ⟨hav, ⟨x, y, r, hx, hy, by omega, rfl⟩, hv⟩
    · rintro ⟨-, ⟨x, y, r, hx, hy, hr, rfl⟩, hv⟩
      exact ⟨⟨y, hy, x, hx, r, by omega, rfl⟩, hv⟩
  · rw [if_neg hav]
    simp only [List.not_mem_nil, false_iff]
    rintro ⟨hav2, -⟩
    exact hav hav2

theorem has_moves_iff_spec (s : CathedralState) (p : Nat) :
    ((get_available_building_types s p).any
        (fun bt => !(get_possible_moves_of_type s bt p).isEmpty) = true) ↔
      spec_has_placement s p := by
  simp only [List.any_eq_true, get_available_building_types, List.mem_filter,
    List.mem_range, decide_eq_true_eq, Bool.not_eq_true']
  constructor
  · rintro ⟨bt, ⟨hbt, hav⟩, hne⟩
    have hne2 : get_possible_moves_of_type s bt p ≠ [] := by
      intro hnil
      rw [hnil] at hne
      simp at hne
    rcases List.exists_mem_of_ne_nil _ hne2 with ⟨m, hm⟩
    rcases (mem_get_possible_moves_of_type s bt p m).mp hm with
      ⟨-, ⟨x, y, r, hx, hy, hr, rfl⟩, hv⟩
    exact ⟨bt, hbt, hav, x, y, r, hx, hy, hr, hv⟩
  · rintro ⟨bt, hbt, hav, x, y, r, hx, hy, hr, hv⟩
    refine ⟨bt, ⟨hbt, hav⟩, ?_⟩
    have hm : (⟨⟨(x : Int), (y : Int)⟩, bt, r⟩ : Move) ∈
        get_possible_moves_of_type s bt p :=
      (mem_get_possible_moves_of_type s bt p _).mpr
        ⟨hav, ⟨x, y, r, hx, hy, hr, rfl⟩, hv⟩
    exact isEmpty_false_of_mem hm

theorem update_current_player_board (s : CathedralState) :
    (update_current_player s).board = s.board ∧
      (update_current_player s).players = s.players := by
  constructor
  · simp only [update_current_player]
    split <;> rfl
  · simp only [update_current_player]
    split <;> rfl

theorem update_current_player_spec (t : CathedralState) :
    ((spec_has_placement t ((t.current_player_ + 1) % 2)) →
        (update_current_player t).current_player_ = (t.current_player_ + 1) % 2) ∧
    ((¬ spec_has_placement t ((t.current_player_ + 1) % 2)) →
        (update_current_player t).current_player_ = t.current_player_) := by
  simp only [update_current_player]
  split
  · next hm =>
    exact ⟨fun _ => rfl, fun hns => absurd ((has_moves_iff_spec t _).mp hm) hns⟩
  · next hm =>
    exact ⟨fun hs => absurd ((has_moves_iff_spec t _).mpr hs) hm, fun _ => rfl⟩

/-- C8 (confirmed).  After every move application the turn passes to the
other player exactly when, in the resulting position, that player has at
least one legal placement across their available building types;
otherwise the mover retains the turn. -/
theorem C8_turn_passes_iff_opponent_can_move (s : CathedralState) (m : Move)
    (s1 : CathedralState) (h : make_unvalidated_move s m = some s1) :
    (spec_has_placement s1 ((s.current_player_ + 1) % 2) →
      s1.current_player_ = (s.current_player_ + 1) % 2) ∧
    (¬ spec_has_placement s1 ((s.current_player_ + 1) % 2) →
      s1.current_player_ = s.current_player_) := by
  rcases hpb : place_building s m with ⟨b, pl, cp, hist, rem⟩
  have hcp : cp = s.current_player_ := by
    have h2 := place_building_current s m
    rw [hpb] at h2
    exact h2
  rw [← hcp]
  simp only [make_unvalidated_move, hpb] at h
  rcases hu : use_building pl cp m.building_type with _ | inv
  · simp only [hu] at h
    exact Option.noConfusion h
  · simp only [hu, Option.some.injEq] at h
    subst h
    have hfields := update_current_player_board (⟨b, inv, cp, hist, rem⟩ : CathedralState)
    have hspec :
        spec_has_placement (update_current_player ⟨b, inv, cp, hist, rem⟩)
            ((cp + 1) % 2) ↔
          spec_has_placement (⟨b, inv, cp, hist, rem⟩ : CathedralState) ((cp + 1) % 2) := by
      unfold spec_has_placement
      rw [hfields.1, hfields.2]
    have hup2 := update_current_player_spec (⟨b, inv, cp, hist, rem⟩ : CathedralState)
    exact ⟨fun hs => hup2.1 (hspec.mp hs),
      fun hns => hup2.2 (fun hs => hns (hspec.mpr hs))⟩

theorem C8_witness :
    make_unvalidated_move initial_state c8_move = some c8_after ∧
      ((spec_has_placement c8_after ((initial_state.current_player_ + 1) % 2) →
          c8_after.current_player_ = (initial_state.current_player_ + 1) % 2) ∧
        (¬ spec_has_placement c8_after ((initial_state.current_player_ + 1) % 2) →
          c8_after.current_player_ = initial_state.current_player_)) :=
  ⟨rfl, C8_turn_passes_iff_opponent_can_move initial_state c8_move c8_after rfl⟩

theorem score_go_eq (rem : List PlayerMove) (l : List PlayerAction) (w b : Int) :
    score_go rem l (w, b) = (w - spec_deficit rem 0 l, b - spec_deficit rem 1 l) := by
  induction l generalizing w b with
  | nil => simp [score_go, spec_deficit]
  | cons pa rest ih =>
    simp only [score_go]
    by_cases hrem : is_piece_removed rem pa = true
    · rw [if_pos hrem, ih]
      simp [spec_deficit, List.filter_cons, hrem]
    · rw [if_neg hrem]
      by_cases hb : (move_of pa.action).building_type = 13
      · have hc : get_square_color (move_of pa.action) pa.player = BLUE := by
          simp [get_square_color, hb]
        simp only [hc]
        rw [ih]
        simp [spec_deficit, List.filter_cons, hrem, hb]
      · by_cases hp0 : pa.player = 0
        · have hc : get_square_color (move_of pa.action) pa.player = WHITE := by
            simp [get_square_color, hb, hp0]
          simp only [hc]
          rw [ih]
          simp only [spec_deficit, List.filter_cons, hrem, hb, hp0, Bool.not_false,
            Bool.and_self, beq_iff_eq, beq_self_eq_true, decide_eq_true_eq,
            Bool.not_eq_true', List.map_cons, List.sum_cons, Prod.mk.injEq]
          constructor
          · ring_nf
            simp [hrem, hb]
            ring
          · simp [hrem, hb]
        · by_cases hp1 : pa.player = 1
          · have hc : get_square_color (move_of pa.action) pa.player = BLACK := by
              simp [get_square_color, hb, hp0, hp1]
            simp only [hc]
            rw [ih]
            simp only [spec_deficit, List.filter_cons, hrem, hb, hp0, hp1,
              Prod.mk.injEq]
            constructor
            · simp [hrem, hb, hp0, hp1]
            · simp [hrem, hb, hp0, hp1]
              ring
          · have hc : get_square_color (move_of pa.action) pa.player = EMPTY := by
              simp [get_square_color, hb, hp0, hp1]
            simp only [hc]
            rw [ih]
            simp [spec_deficit, List.filter_cons, hrem, hb, hp0, hp1]

/-- C1 (amended).  At every finished position each player's score is 47
minus the total occupied-square count of that player's non-removed,
non-neutral history moves (Cathedral moves affect neither score), and
the outcome is decided by these scores with the strictly LOWER score
winning: the lower-scoring player receives utility +1, the higher
-1, and equal scores draw 0, 0.  (The spec's claim that the higher score
wins is the opposite of what `Returns` implements.) -/
theorem C1_scores_and_outcome (s : CathedralState) (h : is_finished s = true) :
    calc_score s = ((47 : Int) - player_deficit s 0, (47 : Int) - player_deficit s 1) ∧
    ((calc_score s).1 < (calc_score s).2 → Returns s = (1, -1)) ∧
    ((calc_score s).2 < (calc_score s).1 → Returns s = (-1, 1)) ∧
    ((calc_score s).1 = (calc_score s).2 → Returns s = (0, 0)) := by
  refine ⟨?_, ?_, ?_, ?_⟩
  · unfold calc_score player_deficit
    exact score_go_eq ..
  · intro hlt
    unfold Returns
    rw [if_pos h, if_pos hlt]
  · intro hlt
    unfold Returns
    rw [if_pos h, if_neg (by omega), if_pos hlt]
  · intro heq
    unfold Returns
    rw [if_pos h, if_neg (by omega), if_neg (by omega)]

theorem C1_witness :
    is_finished c1_state = true ∧ Returns c1_state = (-1, 1) :=
  ⟨by decide, (C1_scores_and_outcome c1_state (by decide)).2.2.1 (by decide)⟩

/-- C1, the claim as stated, is false: `c1_state` is a finished position
where white (player 0) holds the strictly higher score (47 against 46),
yet `Returns` awards white -1 and black +1 — the player with the
strictly higher score loses. -/
theorem C1_counterexample :
    is_finished c1_state = true ∧
      (calc_score c1_state).2 < (calc_score c1_state).1 ∧
      Returns c1_state ≠ (1, -1) ∧ Returns c1_state = (-1, 1) :=
  ⟨by decide, by decide, by decide, by decide⟩

theorem mem_insert_sorted (a x : Int) (l : List Int) :
    a ∈ insert_sorted x l ↔ a = x ∨ a ∈ l := by
  induction l with
  | nil => simp [insert_sorted]
  | cons b l ih =>
    simp only [insert_sorted]
    split
    · simp [List.mem_cons]
    · simp only [List.mem_cons, ih]
      tauto

theorem mem_sort_ascending (a : Int) (l : List Int) :
    a ∈ sort_ascending l ↔ a ∈ l := by
  induction l with
  | nil => simp [sort_ascending]
  | cons x l ih =>
    have hstep : sort_ascending (x :: l) = insert_sorted x (sort_ascending l) := rfl
    rw [hstep, mem_insert_sorted, ih]
    simp [List.mem_cons]

theorem is_legal_action_iff (s : CathedralState) (a : Nat) :
    is_legal_action s a = true ↔
      Int.ofNat a ∈ (get_possible_moves s s.current_player_).map Move.encode := by
  simp only [is_legal_action, LegalActions]
  rw [show ((sort_ascending ((get_possible_moves s s.current_player_).map
      Move.encode)).contains (Int.ofNat a) = true ↔
      Int.ofNat a ∈ sort_ascending ((get_possible_moves s s.current_player_).map
        Move.encode)) from by simp]
  exact mem_sort_ascending ..

theorem map_is_legal_action (o : Option CathedralState) (a : Nat) :
    o.map (fun s => is_legal_action s a) =
      o.map (fun s => decide (Int.ofNat a ∈
        (get_possible_moves s s.current_player_).map Move.encode)) := by
  cases o with
  | none => rfl
  | some s =>
    show some (is_legal_action s a) = some (decide (Int.ofNat a ∈
      (get_possible_moves s s.current_player_).map Move.encode))
    refine congrArg some (Bool.coe_iff_coe.mp ?_)
    rw [is_legal_action_iff]
    simp

set_option maxRecDepth 1000000 in
set_option maxHeartbeats 16000000 in
theorem c3_history_eval :
    (runGame initial_state c3_actions).map (fun s => s.history_) = some c3_hist := by
  decide

set_option maxRecDepth 1000000 in
set_option maxHeartbeats 16000000 in
theorem c3_before_eval :
    c3_before.map (fun s => (s.board ⟨0, 0⟩, s.current_player_, s.history_)) =
      some (EMPTY, 1, c3_hist3) := by
  decide

set_option maxRecDepth 1000000 in
set_option maxHeartbeats 64000000 in
theorem c3_undo_eval :
    (undo_move { initial_state with history_ := c3_hist }).map
      (fun s => s.board ⟨0, 0⟩) = some BLACK_REGION := by
  decide

theorem undo_move_only_history (s : CathedralState)
    (h : s.history_.isEmpty = false) :
    undo_move s = undo_move { initial_state with history_ := s.history_ } := by
  unfold undo_move
  simp [h]

set_option maxRecDepth 1000000 in
set_option maxHeartbeats 16000000 in
/-- C3 fails on the code.  The four actions of `c3_actions` are each
applicable when played (decoded, board-valid and available; the first is
the opening Cathedral placement the first-move rule demands), and the
engine records the history `c3_hist` for them, yet undoing the fourth
move does not restore the pre-move state: before the fourth move cell
(0,0) is `EMPTY` (the capture sweep never ran during the first three
moves, whose move counts were 0, 1 and 2), while after undo it is
`BLACK_REGION` — during the replay inside `undo_move` the history
already holds all three remaining entries, so `get_move_count()` returns
3 for every replayed move, the `move_count == 3` clause forces the
capture sweep after each of them, and the sweep captures the empty
pocket at (0,0) sealed by the black Inn. -/
theorem C3_undo_replay_divergence :
    ((runGame initial_state c3_actions).map (fun s => s.history_) = some c3_hist) ∧
    (((runGame initial_state c3_actions).bind undo_move).map
      (fun s => s.board ⟨0, 0⟩) = some BLACK_REGION) ∧
    (c3_before.map (fun s => (s.board ⟨0, 0⟩, s.current_player_, s.history_)) =
      some (EMPTY, 1, c3_hist3)) ∧
    ((runGame initial_state (c3_actions.take 0)).map
        (fun s => can_apply s 5255) = some true) ∧
    ((runGame initial_state (c3_actions.take 1)).map
        (fun s => can_apply s 901) = some true) ∧
    ((runGame initial_state (c3_actions.take 2)).map
        (fun s => can_apply s 88) = some true) ∧
    ((runGame initial_state (c3_actions.take 3)).map
        (fun s => can_apply s 18) = some true) := by
  refine ⟨c3_history_eval, ?_, c3_before_eval, by decide, by decide, by decide, by decide⟩
  rcases Option.map_eq_some'.mp c3_history_eval with ⟨S, hS, hhist⟩
  rw [hS]
  show (undo_move S).map (fun s => s.board ⟨0, 0⟩) = some BLACK_REGION
  have hne : S.history_.isEmpty = false := by
    rw [hhist]
    rfl
  have hu := undo_move_only_history S hne
  rw [hhist] at hu
  rw [hu]
  exact c3_undo_eval
